import Mathlib

/-!
Shallow embedding of `xsd/pointwise_models/bcsd.py` (the BCSD pointwise
bias-correction models) and proofs about it.

A pandas time series is modelled as a list of (timestamp, value) pairs with
natural-number timestamps and rational values.  The external QuantileMapper
collaborator is modelled as an opaque interface.  Errors raised by the pandas
layer (KeyError on a missing dict/label lookup, ValueError from an explicit
raise or a shape mismatch, TypeError from an unsupported operation,
AttributeError from reading a never-assigned attribute) are modelled with an
explicit error type and `Except`.
-/

set_option maxRecDepth 8000

/-- A single-variable time series: (timestamp, value) pairs, timestamps as
naturals, values as rationals. -/
abbrev Series := List (Nat × ℚ)

/-- Errors surfaced by the pandas-level operations of bcsd.py. -/
inductive BcsdErr : Type where
  | keyError : Nat → BcsdErr
  | valueError : String → BcsdErr
  | typeError : String → BcsdErr
  | attributeError : String → BcsdErr
deriving DecidableEq

instance {ε α : Type} [DecidableEq ε] [DecidableEq α] : DecidableEq (Except ε α) :=
  fun x y =>
    match x, y with
    | Except.ok a, Except.ok b =>
        if h : a = b then isTrue (by rw [h]) else isFalse (fun hh => by cases hh; exact h rfl)
    | Except.error a, Except.error b =>
        if h : a = b then isTrue (by rw [h]) else isFalse (fun hh => by cases hh; exact h rfl)
    | Except.ok _, Except.error _ => isFalse (fun hh => by cases hh)
    | Except.error _, Except.ok _ => isFalse (fun hh => by cases hh)

/-- External Quantile Mapper collaborator (from `.utils`, out of scope in the
source): `fit` learns a mapper state from one group's samples, `transform`
applies a fitted mapper to new samples. -/
structure QMIface (σ : Type) : Type where
  fit : List ℚ → σ
  transform : σ → List ℚ → List ℚ

/-- Mean of a list of values (pandas `mean`). -/
def listMean (xs : List ℚ) : ℚ := xs.sum / (xs.length : ℚ)

/-- Minimum of a list of values; `none` for the empty list (pandas returns NaN
there, and `NaN <= 0` is false). -/
def listMin : List ℚ → Option ℚ
  | [] => none
  | x :: xs => some (xs.foldl min x)

/-- Distinct group keys of a series in ascending order: pandas `groupby`
iterates its groups sorted by key. -/
def seriesKeys (g : Nat → Nat) (s : Series) : List Nat :=
  List.insertionSort (· ≤ ·) (s.map (fun p => g p.1)).dedup

/-- The subsequence of `s` whose timestamps map to key `k`, in original order. -/
def groupOf (g : Nat → Nat) (k : Nat) (s : Series) : Series :=
  s.filter (fun p => g p.1 == k)

/-- pandas `obj.groupby(grouper)`: the (key, group) pairs in ascending key
order; groups partition the series. -/
def seriesGroupby (g : Nat → Nat) (s : Series) : List (Nat × Series) :=
  (seriesKeys g s).map (fun k => (k, groupOf g k s))

/-- pandas `obj.groupby(grouper).mean()`: the per-key mean of the values,
indexed by key — a climatology. -/
def groupMean (g : Nat → Nat) (s : Series) : List (Nat × ℚ) :=
  (seriesKeys g s).map (fun k => (k, listMean ((groupOf g k s).map Prod.snd)))

/-- Label lookup `climatology.loc[k]`; `none` models the KeyError raised on a
missing label. -/
def climoLookup (c : List (Nat × ℚ)) (k : Nat) : Option ℚ :=
  (c.find? (fun p => p.1 == k)).map Prod.snd

/-- Climatology value with a junk default; used only in statements where the
entry provably exists. -/
def climoValD (c : List (Nat × ℚ)) (k : Nat) : ℚ := (climoLookup c k).getD 0

/-- Python dict lookup `d[k]`; `none` models the KeyError on a missing key. -/
def dictGet {σ : Type} (d : List (Nat × σ)) (k : Nat) : Option σ :=
  (d.find? (fun p => p.1 == k)).map Prod.snd

/-- Python dict assignment `d[k] = v`, on an association list whose lookup
takes the most recent binding: observably equal to in-place update. -/
def dictSet {σ : Type} (d : List (Nat × σ)) (k : Nat) (v : σ) : List (Nat × σ) :=
  (k, v) :: d

/-- pandas `x.rolling(w, center=True, min_periods=1).mean()` on a value list:
entry `i` averages the samples at positions `i-(w-1)/2 .. i+w/2`, clipped to
the list, so every entry is defined whenever the list is nonempty. -/
def rollingMean (w : Nat) (xs : List ℚ) : List ℚ :=
  (List.range xs.length).map (fun i =>
    let win := (xs.drop (i - (w - 1) / 2)).take (i + w / 2 + 1 - (i - (w - 1) / 2))
    win.sum / (win.length : ℚ))

/-- Step 1 of `BcsdTemperature.predict` as written in the source:
`X.groupby(self.grouper_).apply(rolling_func)` — the rolling mean is applied
within each calendar-period group, and the per-group results are concatenated
in key order. -/
def groupedRolling (g : Nat → Nat) (w : Nat) (s : Series) : Series :=
  (seriesGroupby g s).flatMap
    (fun kg => (kg.2.map Prod.fst).zip (rollingMean w (kg.2.map Prod.snd)))

/-- A rolling mean taken over the whole series in timestamp order, keeping the
original index: what the specification text describes for step 1. -/
def wholeRolling (w : Nat) (s : Series) : Series :=
  (s.map Prod.fst).zip (rollingMean w (s.map Prod.snd))

/-- Row order by timestamp, non-strict (the sort key of `sort_index`). -/
def idxLE (a b : Nat × ℚ) : Prop := a.1 ≤ b.1

instance : DecidableRel idxLE := fun a b => Nat.decLe a.1 b.1

/-- pandas `pd.concat(dfs).sort_index()`: sort the rows by timestamp. -/
def sortByIndex (s : Series) : Series :=
  List.insertionSort idxLE s

/-- Per-group loop of `BcsdBase._qm_transform_by_group`: look up each group's
fitted mapper (KeyError when absent), transform the group's values, and
re-attach the group's index (`pd.DataFrame(qmapped, index=group.index)`
raises a ValueError when the transformed length differs from the index). -/
def qmTransformGroups {σ : Type} (qmI : QMIface σ) (d : List (Nat × σ)) :
    List (Nat × Series) → Except BcsdErr (List Series)
  | [] => Except.ok []
  | (k, grp) :: rest =>
    match dictGet d k with
    | none => Except.error (BcsdErr.keyError k)
    | some m =>
      let vals := qmI.transform m (grp.map Prod.snd)
      if vals.length = grp.length then
        (qmTransformGroups qmI d rest).map
          (fun tl => ((grp.map Prod.fst).zip vals) :: tl)
      else Except.error (BcsdErr.valueError "Shape of passed values does not match the index")

/-- `BcsdBase._qm_transform_by_group`: transform every group, then
`pd.concat(dfs).sort_index()`. -/
def qm_transform_by_group {σ : Type} (qmI : QMIface σ) (d : List (Nat × σ))
    (g : Nat → Nat) (s : Series) : Except BcsdErr Series :=
  (qmTransformGroups qmI d (seriesGroupby g s)).map (fun dfs => sortByIndex dfs.flatten)

/-- `BcsdBase._qm_fit_by_group`: fit one quantile mapper per group and store it
in the dict under the group key (never clearing existing entries). -/
def qm_fit_by_group {σ : Type} (qmI : QMIface σ) (d : List (Nat × σ))
    (groups : List (Nat × Series)) : List (Nat × σ) :=
  groups.foldl (fun d2 kg => dictSet d2 kg.1 (qmI.fit (kg.2.map Prod.snd))) d

/-- Per-group loop of `BcsdBase._remove_climatology`: subtract the group's
climatology value from every sample of the group (KeyError on a missing
climatology label). -/
def removeClimGroups (climo : List (Nat × ℚ)) :
    List (Nat × Series) → Except BcsdErr (List Series)
  | [] => Except.ok []
  | (k, grp) :: rest =>
    match climoLookup climo k with
    | none => Except.error (BcsdErr.keyError k)
    | some c =>
      (removeClimGroups climo rest).map (fun tl => grp.map (fun p => (p.1, p.2 - c)) :: tl)

/-- `BcsdBase._remove_climatology`: subtract each group's climatology value,
then `pd.concat(dfs).sort_index()` (the source's shape assertion always holds,
since the groups partition the input). -/
def remove_climatology (g : Nat → Nat) (climo : List (Nat × ℚ)) (s : Series) :
    Except BcsdErr Series :=
  (removeClimGroups climo (seriesGroupby g s)).map (fun dfs => sortByIndex dfs.flatten)

/-- pandas index-aligned elementwise arithmetic (`X - X_shift`, `Xqm + X_shift`),
restricted to equally-indexed operands — the only case arising in this
pipeline; labels missing on one side would produce missing values, which the
rational-valued model excludes. -/
def alignedZip (f : ℚ → ℚ → ℚ) (a b : Series) : Except BcsdErr Series :=
  if a.map Prod.fst = b.map Prod.fst then
    Except.ok (List.zipWith (fun p q => (p.1, f p.2 q.2)) a b)
  else Except.error (BcsdErr.valueError "unaligned series")

/-- Fitted state of a BCSD model: the `quantile_mappers_` dict and the
`_x_climo` / `_y_climo` attributes (`none` while never assigned). -/
structure BcsdState (σ : Type) : Type where
  quantile_mappers_ : List (Nat × σ)
  x_climo : Option (List (Nat × ℚ))
  y_climo : Option (List (Nat × ℚ))
deriving DecidableEq

/-- `BcsdBase.__init__`: empty mapper dict, no climatology attributes yet. -/
def initState (σ : Type) : BcsdState σ := ⟨[], none, none⟩

namespace BcsdPrecipitation

/-- `BcsdPrecipitation.fit`, returning the model state as left after the call
together with the raised error, if any.  Note the order of effects in the
source: `self._y_climo` is assigned before the positivity check, so a failing
fit still overwrites the stored target climatology; the quantile mappers are
fitted only when the check passes.  `X` is accepted and unused, as in the
source. -/
def fit {σ : Type} (qmI : QMIface σ) (g : Nat → Nat) (st : BcsdState σ)
    (X y : Series) : BcsdState σ × Option BcsdErr :=
  let climo := groupMean g y
  let st1 : BcsdState σ := ⟨st.quantile_mappers_, st.x_climo, some climo⟩
  match listMin (climo.map Prod.snd) with
  | some m =>
    if m ≤ 0 then
      (st1, some (BcsdErr.valueError "Invalid value in target climatology"))
    else
      (⟨qm_fit_by_group qmI st1.quantile_mappers_ (seriesGroupby g y),
        st1.x_climo, st1.y_climo⟩, none)
  | none =>
    (⟨qm_fit_by_group qmI st1.quantile_mappers_ (seriesGroupby g y),
      st1.x_climo, st1.y_climo⟩, none)

/-- `BcsdPrecipitation.predict`: quantile-map the input by group, then evaluate
`Xqm.groupby(self.grouper_) / self._y_climo`.  pandas GroupBy objects
implement no arithmetic operators (the source itself records the analogous
groupby subtraction not working, bcsd.py lines 170-171), so when the
quantile-mapping succeeds the final expression raises a TypeError instead of
dividing group-wise. -/
def predict {σ : Type} (qmI : QMIface σ) (g : Nat → Nat) (st : BcsdState σ)
    (X : Series) : Except BcsdErr Series :=
  (qm_transform_by_group qmI st.quantile_mappers_ g X).bind
    (fun _ => Except.error (BcsdErr.typeError
      "unsupported operand types for div: DataFrameGroupBy and Series"))

/-- Per-group division by a climatology, the analogue of `removeClimGroups`
with division in place of subtraction. -/
def divideClimGroups (climo : List (Nat × ℚ)) :
    List (Nat × Series) → Except BcsdErr (List Series)
  | [] => Except.ok []
  | (k, grp) :: rest =>
    match climoLookup climo k with
    | none => Except.error (BcsdErr.keyError k)
    | some c =>
      (divideClimGroups climo rest).map (fun tl => grp.map (fun p => (p.1, p.2 / c)) :: tl)

/-- Modelled from the spec: the group-by-group division of the quantile-mapped
series by the target climatology that the final line of
`BcsdPrecipitation.predict` intends (ratio-based correction); the executable
form of that division is missing from the source, whose written expression
cannot evaluate. -/
def predictIntended {σ : Type} (qmI : QMIface σ) (g : Nat → Nat) (st : BcsdState σ)
    (X : Series) : Except BcsdErr Series :=
  match st.y_climo with
  | none => Except.error (BcsdErr.attributeError "_y_climo")
  | some yc =>
    (qm_transform_by_group qmI st.quantile_mappers_ g X).bind
      (fun Xqm => (divideClimGroups yc (seriesGroupby g Xqm)).map
        (fun dfs => sortByIndex dfs.flatten))

end BcsdPrecipitation

namespace BcsdTemperature

/-- `BcsdTemperature.fit`: store the training-input climatology and the target
climatology, and fit one quantile mapper per target group (the mapper dict is
updated, never cleared).  This fit raises no error. -/
def fit {σ : Type} (qmI : QMIface σ) (g : Nat → Nat) (st : BcsdState σ)
    (X y : Series) : BcsdState σ × Option BcsdErr :=
  (⟨qm_fit_by_group qmI st.quantile_mappers_ (seriesGroupby g y),
    some (groupMean g X), some (groupMean g y)⟩, none)

/-- `BcsdTemperature.predict`, translated line by line: grouped rolling mean,
shift extraction against `_x_climo`, shift removal, group-wise quantile
mapping, shift restoration, and the final anomaly against `_y_climo`. -/
def predict {σ : Type} (qmI : QMIface σ) (g : Nat → Nat) (st : BcsdState σ)
    (X : Series) : Except BcsdErr Series :=
  let X_rolling_mean := groupedRolling g 9 X
  (match st.x_climo with
   | none => Except.error (BcsdErr.attributeError "_x_climo")
   | some xc => remove_climatology g xc X_rolling_mean).bind (fun X_shift =>
  (alignedZip (fun a b => a - b) X X_shift).bind (fun X_no_shift =>
  (qm_transform_by_group qmI st.quantile_mappers_ g X_no_shift).bind (fun Xqm =>
  (alignedZip (fun a b => a + b) Xqm X_shift).bind (fun X_qm_with_shift =>
  match st.y_climo with
  | none => Except.error (BcsdErr.attributeError "_y_climo")
  | some yc => remove_climatology g yc X_qm_with_shift))))

/-- Steps 2 to 6 of the predict pipeline (shift extraction, shift removal,
group-wise quantile mapping, shift restoration, anomaly), taking the step-1
rolling series as an argument, so that the pipeline can be instantiated with
either reading of step 1. -/
def pipelineTail {σ : Type} (qmI : QMIface σ) (g : Nat → Nat) (st : BcsdState σ)
    (X X_rolling_mean : Series) : Except BcsdErr Series :=
  (match st.x_climo with
   | none => Except.error (BcsdErr.attributeError "_x_climo")
   | some xc => remove_climatology g xc X_rolling_mean).bind (fun X_shift =>
  (alignedZip (fun a b => a - b) X X_shift).bind (fun X_no_shift =>
  (qm_transform_by_group qmI st.quantile_mappers_ g X_no_shift).bind (fun Xqm =>
  (alignedZip (fun a b => a + b) Xqm X_shift).bind (fun X_qm_with_shift =>
  match st.y_climo with
  | none => Except.error (BcsdErr.attributeError "_y_climo")
  | some yc => remove_climatology g yc X_qm_with_shift))))

/-- The predict pipeline exactly as the claim states it: step 1 is the rolling
mean of the whole input series in timestamp order. -/
def statedPipeline {σ : Type} (qmI : QMIface σ) (g : Nat → Nat) (st : BcsdState σ)
    (X : Series) : Except BcsdErr Series :=
  pipelineTail qmI g st X (wholeRolling 9 X)

/-- The predict pipeline with step 1 amended to what the source computes: the
rolling mean applied within each calendar-period group. -/
def amendedPipeline {σ : Type} (qmI : QMIface σ) (g : Nat → Nat) (st : BcsdState σ)
    (X : Series) : Except BcsdErr Series :=
  pipelineTail qmI g st X (groupedRolling g 9 X)

end BcsdTemperature

/-- The MONTH_GROUPER default, on timestamps counted in months. -/
def monthGrouper : Nat → Nat := fun t => t % 12 + 1

/-- A two-period grouper used in concrete counterexamples. -/
def parityGrouper : Nat → Nat := fun t => t % 2

/-- Identity quantile mapper: stateless; transform returns its input. -/
def idQM : QMIface Unit := ⟨fun _ => (), fun _ xs => xs⟩

/-- Doubling quantile mapper: stateless; transform doubles every value
(length-preserving, not the identity). -/
def doubleQM : QMIface Unit := ⟨fun _ => (), fun _ xs => xs.map (fun v => 2 * v)⟩

/-! Infrastructure: ordering of rows by timestamp. -/

/-- Row order by timestamp, strict (valid series have strictly increasing
timestamps). -/
def idxLT (a b : Nat × ℚ) : Prop := a.1 < b.1

instance : DecidableRel idxLT := fun a b => Nat.decLt a.1 b.1

instance : IsTotal (Nat × ℚ) idxLE := ⟨fun a b => Nat.le_total a.1 b.1⟩

instance : IsTrans (Nat × ℚ) idxLE := ⟨fun _ _ _ h1 h2 => Nat.le_trans h1 h2⟩

instance : IsAntisymm (Nat × ℚ) idxLT :=
  ⟨fun _ _ h1 h2 => absurd (Nat.lt_trans h1 h2) (Nat.lt_irrefl _)⟩

instance : IsAntisymm Nat (· < ·) :=
  ⟨fun _ _ h1 h2 => absurd (Nat.lt_trans h1 h2) (Nat.lt_irrefl _)⟩

/-- The sorted output of `sortByIndex` is a permutation of its input. -/
lemma sortByIndex_perm (s : Series) : (sortByIndex s).Perm s :=
  List.perm_insertionSort idxLE s

/-- The output of `sortByIndex` is sorted by timestamp. -/
lemma sortByIndex_sorted (s : Series) : List.Sorted idxLE (sortByIndex s) :=
  List.sorted_insertionSort idxLE s

/-- A list sorted by non-strict timestamp order whose timestamps are distinct
is sorted by strict timestamp order. -/
lemma pairwise_idxLT_of_idxLE {l : Series} (hs : List.Pairwise idxLE l)
    (hn : (l.map Prod.fst).Nodup) : List.Pairwise idxLT l := by
  have hne : List.Pairwise (fun a b : Nat × ℚ => a.1 ≠ b.1) l := List.pairwise_map.mp hn
  exact (hs.and hne).imp (fun h => Nat.lt_of_le_of_ne h.1 h.2)

/-- Strict timestamp order gives distinct timestamps. -/
lemma nodup_fst_of_idxLT {l : Series} (hl : List.Pairwise idxLT l) :
    (l.map Prod.fst).Nodup := by
  exact List.pairwise_map.mpr (hl.imp (fun h => Nat.ne_of_lt h))

/-- Two strictly sorted permutations of each other are equal. -/
lemma eq_of_perm_idxLT {l m : Series} (hp : l.Perm m) (hl : List.Pairwise idxLT l)
    (hm : List.Pairwise idxLT m) : l = m :=
  List.eq_of_perm_of_sorted hp hl hm

/-- Sorting a permutation of a strictly sorted series returns that series. -/
lemma sortByIndex_eq_of_perm {l m : Series} (hp : l.Perm m)
    (hm : List.Pairwise idxLT m) : sortByIndex l = m := by
  have hperm : (sortByIndex l).Perm m := (sortByIndex_perm l).trans hp
  have hnodup : ((sortByIndex l).map Prod.fst).Nodup := by
    have := (hperm.map Prod.fst).nodup_iff
    exact this.mpr (nodup_fst_of_idxLT hm)
  exact eq_of_perm_idxLT hperm
    (pairwise_idxLT_of_idxLE (sortByIndex_sorted l) hnodup) hm

/-! Infrastructure: groupby as a partition. -/

/-- Membership in a group. -/
lemma mem_groupOf {g : Nat → Nat} {k : Nat} {s : Series} {p : Nat × ℚ} :
    p ∈ groupOf g k s ↔ p ∈ s ∧ g p.1 = k := by
  simp [groupOf, List.mem_filter]

/-- Every sample key occurs among the series keys. -/
lemma mem_seriesKeys {g : Nat → Nat} {s : Series} {k : Nat} :
    k ∈ seriesKeys g s ↔ ∃ p ∈ s, g p.1 = k := by
  unfold seriesKeys
  rw [(List.perm_insertionSort _ _).mem_iff, List.mem_dedup]
  simp

/-- The series keys are distinct. -/
lemma nodup_seriesKeys (g : Nat → Nat) (s : Series) : (seriesKeys g s).Nodup :=
  (List.perm_insertionSort _ _).nodup_iff.mpr (List.nodup_dedup _)

/-- The keys of the groupby are the series keys. -/
lemma seriesGroupby_fst (g : Nat → Nat) (s : Series) :
    (seriesGroupby g s).map Prod.fst = seriesKeys g s := by
  simp [seriesGroupby, List.map_map, Function.comp_def]


/-- Each groupby entry is the filter of the series at its key. -/
lemma mem_seriesGroupby {g : Nat → Nat} {s : Series} {kg : Nat × Series} :
    kg ∈ seriesGroupby g s ↔ kg.1 ∈ seriesKeys g s ∧ kg.2 = groupOf g kg.1 s := by
  unfold seriesGroupby
  constructor
  · intro h
    rcases List.mem_map.mp h with ⟨k, hk, rfl⟩
    exact ⟨hk, rfl⟩
  · rcases kg with ⟨k, grp⟩
    rintro ⟨hk, hkg⟩
    dsimp at hk hkg
    subst hkg
    exact List.mem_map.mpr ⟨k, hk, rfl⟩

/-- Filtering by one key commutes past removing a different key. -/
lemma groupOf_filter_ne {g : Nat → Nat} {k k2 : Nat} (hne : k2 ≠ k) (s : Series) :
    groupOf g k2 (s.filter (fun p => !(g p.1 == k))) = groupOf g k2 s := by
  unfold groupOf
  rw [List.filter_filter]
  apply List.filter_congr
  intro p _
  by_cases h : g p.1 = k2
  · have hgk : g p.1 ≠ k := fun hc => hne (by rw [← h, hc])
    simp [h, hgk, hne]
  · simp [h]

/-- Concatenating the per-key filters over any duplicate-free key list covering
the series permutes the series. -/
lemma flatten_filters_perm (g : Nat → Nat) :
    ∀ (K : List Nat) (s : Series), K.Nodup → (∀ p ∈ s, g p.1 ∈ K) →
      ((K.map (fun k => groupOf g k s)).flatten).Perm s := by
  intro K
  induction K with
  | nil =>
    intro s _ hcov
    have : s = [] := by
      cases s with
      | nil => rfl
      | cons a s => exact absurd (hcov a (List.mem_cons_self a s)) (List.not_mem_nil _)
    subst this
    simp
  | cons k K ih =>
    intro s hnd hcov
    have hnd2 := List.nodup_cons.mp hnd
    set s2 : Series := s.filter (fun p => !(g p.1 == k)) with hs2
    have hmap : K.map (fun k2 => groupOf g k2 s) = K.map (fun k2 => groupOf g k2 s2) := by
      apply List.map_congr_left
      intro k2 hk2
      have hne : k2 ≠ k := by
        intro he
        subst he
        exact hnd2.1 hk2
      exact (groupOf_filter_ne hne s).symm
    have hcov2 : ∀ p ∈ s2, g p.1 ∈ K := by
      intro p hp
      rw [hs2, List.mem_filter] at hp
      rcases List.mem_cons.mp (hcov p hp.1) with h | h
      · exfalso
        have hb := hp.2
        simp [h] at hb
      · exact h
    have ihs2 : ((K.map (fun k2 => groupOf g k2 s2)).flatten).Perm s2 :=
      ih s2 hnd2.2 hcov2
    have h1 : (List.map (fun k2 => groupOf g k2 s) (k :: K)).flatten
        = groupOf g k s ++ (K.map (fun k2 => groupOf g k2 s2)).flatten := by
      rw [List.map_cons, List.flatten_cons, hmap]
    rw [h1]
    exact (ihs2.append_left (groupOf g k s)).trans
      (List.filter_append_perm (fun p : Nat × ℚ => g p.1 == k) s)

/-- The groups of a series are a partition: concatenating them permutes the
series. -/
lemma flatten_groups_perm (g : Nat → Nat) (s : Series) :
    (((seriesGroupby g s).map Prod.snd).flatten).Perm s := by
  have hmap : (seriesGroupby g s).map Prod.snd
      = (seriesKeys g s).map (fun k => groupOf g k s) := by
    simp [seriesGroupby, List.map_map, Function.comp_def]
  rw [hmap]
  exact flatten_filters_perm g (seriesKeys g s) s (nodup_seriesKeys g s)
    (fun p hp => mem_seriesKeys.mpr ⟨p, hp, rfl⟩)

/-- The timestamps of the concatenated groups permute the series timestamps. -/
lemma flatten_groups_fst_perm (g : Nat → Nat) (s : Series) :
    ((((seriesGroupby g s).map Prod.snd).flatten).map Prod.fst).Perm (s.map Prod.fst) :=
  (flatten_groups_perm g s).map Prod.fst

/-! Infrastructure: small list facts. -/

/-- The rolling mean has one entry per input sample. -/
lemma rollingMean_length (w : Nat) (xs : List ℚ) :
    (rollingMean w xs).length = xs.length := by
  simp [rollingMean]

/-- Zipping the two projections of a pair list rebuilds the list. -/
lemma zip_fst_snd (l : Series) : (l.map Prod.fst).zip (l.map Prod.snd) = l := by
  induction l with
  | nil => rfl
  | cons a l ih => simp [ih]

/-- Strict row order is strict order of the timestamp list. -/
lemma pairwise_idxLT_map_fst {l : Series} :
    List.Pairwise idxLT l ↔ List.Pairwise (· < ·) (l.map Prod.fst) :=
  (@List.pairwise_map (Nat × ℚ) Nat Prod.fst (· < ·) l).symm

/-- Non-strict row order is non-strict order of the timestamp list. -/
lemma pairwise_idxLE_map_fst {l : Series} :
    List.Pairwise idxLE l ↔ List.Pairwise (· ≤ ·) (l.map Prod.fst) :=
  (@List.pairwise_map (Nat × ℚ) Nat Prod.fst (· ≤ ·) l).symm

/-- Aligned pairwise arithmetic keeps the timestamps of its left operand. -/
lemma zipWith_pair_fst (f : ℚ → ℚ → ℚ) :
    ∀ (a b : Series), a.map Prod.fst = b.map Prod.fst →
      (List.zipWith (fun p q => (p.1, f p.2 q.2)) a b).map Prod.fst = a.map Prod.fst := by
  intro a
  induction a with
  | nil => intro b _; rfl
  | cons x a ih =>
    intro b h
    cases b with
    | nil => exact absurd h (by simp)
    | cons y b =>
      simp only [List.map_cons, List.cons.injEq] at h
      simp [ih b h.2]

/-- Subtracting and re-adding an aligned series is the identity. -/
lemma zipWith_sub_add :
    ∀ (a b : Series), a.map Prod.fst = b.map Prod.fst →
      List.zipWith (fun p q => (p.1, p.2 + q.2))
        (List.zipWith (fun p q => (p.1, p.2 - q.2)) a b) b = a := by
  intro a
  induction a with
  | nil => intro b _; rfl
  | cons x a ih =>
    intro b h
    cases b with
    | nil => exact absurd h (by simp)
    | cons y b =>
      simp only [List.map_cons, List.cons.injEq] at h
      simp [ih b h.2, sub_add_cancel]

/-! Infrastructure: behaviour of the per-group loops. -/

/-- When every group key has a fitted mapper and the mapper transform preserves
length, the transform loop succeeds and each returned frame keeps its group's
index. -/
lemma qmTransformGroups_ok {σ : Type} (qmI : QMIface σ) (d : List (Nat × σ))
    (hlen : ∀ m xs, (qmI.transform m xs).length = xs.length) :
    ∀ groups : List (Nat × Series), (∀ kg ∈ groups, (dictGet d kg.1).isSome) →
      ∃ dfs, qmTransformGroups qmI d groups = Except.ok dfs ∧
        dfs.map (List.map Prod.fst) = groups.map (fun kg => kg.2.map Prod.fst) := by
  intro groups
  induction groups with
  | nil => intro _; exact ⟨[], rfl, rfl⟩
  | cons kg rest ih =>
    intro hcov
    rcases kg with ⟨k, grp⟩
    have hk := hcov (k, grp) (List.mem_cons_self _ _)
    rcases Option.isSome_iff_exists.mp hk with ⟨m, hm⟩
    rcases ih (fun kg2 h2 => hcov kg2 (List.mem_cons_of_mem _ h2)) with ⟨dfs, hdfs, hfst⟩
    have hlen2 : (qmI.transform m (grp.map Prod.snd)).length = grp.length := by
      rw [hlen]; simp
    refine ⟨(grp.map Prod.fst).zip (qmI.transform m (grp.map Prod.snd)) :: dfs, ?_, ?_⟩
    · simp only [qmTransformGroups, hm, hlen2]
      rw [hdfs]
      simp [Except.map]
    · simp only [List.map_cons, hfst, List.cons.injEq, and_true]
      apply List.map_fst_zip
      rw [hlen2]
      simp

/-- With an identity transform and full mapper coverage, the transform loop
returns exactly the groups. -/
lemma qmTransformGroups_id {σ : Type} (qmI : QMIface σ)
    (hid : ∀ m xs, qmI.transform m xs = xs) (d : List (Nat × σ)) :
    ∀ groups : List (Nat × Series), (∀ kg ∈ groups, (dictGet d kg.1).isSome) →
      qmTransformGroups qmI d groups = Except.ok (groups.map Prod.snd) := by
  intro groups
  induction groups with
  | nil => intro _; rfl
  | cons kg rest ih =>
    intro hcov
    rcases kg with ⟨k, grp⟩
    have hk := hcov (k, grp) (List.mem_cons_self _ _)
    rcases Option.isSome_iff_exists.mp hk with ⟨m, hm⟩
    have hrest := ih (fun kg2 h2 => hcov kg2 (List.mem_cons_of_mem _ h2))
    simp only [qmTransformGroups, hm, hid, List.length_map, if_true, hrest]
    simp [Except.map, zip_fst_snd]

/-- If some group has no fitted mapper and the transform preserves length, the
transform loop stops with a KeyError naming an unfitted key. -/
lemma qmTransformGroups_keyError {σ : Type} (qmI : QMIface σ) (d : List (Nat × σ))
    (hlen : ∀ m xs, (qmI.transform m xs).length = xs.length) :
    ∀ groups : List (Nat × Series), (∃ kg ∈ groups, dictGet d kg.1 = none) →
      ∃ k, qmTransformGroups qmI d groups = Except.error (BcsdErr.keyError k) ∧
        dictGet d k = none := by
  intro groups
  induction groups with
  | nil => rintro ⟨kg, hkg, _⟩; exact absurd hkg (List.not_mem_nil _)
  | cons kg0 rest ih =>
    rintro ⟨kg, hkg, hnone⟩
    rcases kg0 with ⟨k0, grp0⟩
    cases hd : dictGet d k0 with
    | none => exact ⟨k0, by simp [qmTransformGroups, hd], hd⟩
    | some m =>
      have hmem : kg ∈ rest := by
        rcases List.mem_cons.mp hkg with h | h
        · exfalso
          rw [h] at hnone
          rw [hnone] at hd
          cases hd
        · exact h
      rcases ih ⟨kg, hmem, hnone⟩ with ⟨k, hk, hknone⟩
      refine ⟨k, ?_, hknone⟩
      have hlen2 : (qmI.transform m (grp0.map Prod.snd)).length = grp0.length := by
        rw [hlen]; simp
      simp [qmTransformGroups, hd, hlen2, hk, Except.map]

/-- When every group key has a climatology entry, the climatology-removal loop
succeeds and subtracts each group's entry pointwise. -/
lemma removeClimGroups_ok (climo : List (Nat × ℚ)) :
    ∀ groups : List (Nat × Series), (∀ kg ∈ groups, (climoLookup climo kg.1).isSome) →
      removeClimGroups climo groups = Except.ok
        (groups.map (fun kg => kg.2.map (fun p => (p.1, p.2 - climoValD climo kg.1)))) := by
  intro groups
  induction groups with
  | nil => intro _; rfl
  | cons kg rest ih =>
    intro hcov
    rcases kg with ⟨k, grp⟩
    have hk := hcov (k, grp) (List.mem_cons_self _ _)
    rcases Option.isSome_iff_exists.mp hk with ⟨c, hc⟩
    have hrest := ih (fun kg2 h2 => hcov kg2 (List.mem_cons_of_mem _ h2))
    have hval : climoValD climo k = c := by simp [climoValD, hc]
    simp [removeClimGroups, hc, hrest, Except.map, hval]

/-- If some group key has no climatology entry, the climatology-removal loop
stops with a KeyError naming a missing key. -/
lemma removeClimGroups_keyError (climo : List (Nat × ℚ)) :
    ∀ groups : List (Nat × Series), (∃ kg ∈ groups, climoLookup climo kg.1 = none) →
      ∃ k, removeClimGroups climo groups = Except.error (BcsdErr.keyError k) ∧
        climoLookup climo k = none := by
  intro groups
  induction groups with
  | nil => rintro ⟨kg, hkg, _⟩; exact absurd hkg (List.not_mem_nil _)
  | cons kg0 rest ih =>
    rintro ⟨kg, hkg, hnone⟩
    rcases kg0 with ⟨k0, grp0⟩
    cases hd : climoLookup climo k0 with
    | none => exact ⟨k0, by simp [removeClimGroups, hd], hd⟩
    | some c =>
      have hmem : kg ∈ rest := by
        rcases List.mem_cons.mp hkg with h | h
        · exfalso
          rw [h] at hnone
          rw [hnone] at hd
          cases hd
        · exact h
      rcases ih ⟨kg, hmem, hnone⟩ with ⟨k, hk, hknone⟩
      exact ⟨k, by simp [removeClimGroups, hd, hk, Except.map], hknone⟩

/-! Infrastructure: master lemmas about the whole operations. -/

/-- A property of the sample keys transfers to the groupby keys. -/
lemma groupby_key_prop {g : Nat → Nat} {s : Series} (P : Nat → Prop)
    (hcov : ∀ p ∈ s, P (g p.1)) : ∀ kg ∈ seriesGroupby g s, P kg.1 := by
  intro kg hkg
  rcases (mem_seriesGroupby.mp hkg).1 |> mem_seriesKeys.mp with ⟨p, hp, hpk⟩
  rw [← hpk]
  exact hcov p hp

/-- A map that preserves timestamps preserves the timestamp list. -/
lemma map_fst_preserving (f : Nat × ℚ → Nat × ℚ) (hf : ∀ p, (f p).1 = p.1)
    (s : Series) : (s.map f).map Prod.fst = s.map Prod.fst := by
  rw [List.map_map]
  exact List.map_congr_left (fun p _ => hf p)

/-- A non-strictly sorted permutation of a strictly sorted timestamp list
equals it. -/
lemma eq_fst_of_perm_sorted {u v : List Nat} (hp : u.Perm v)
    (hu : List.Pairwise (· ≤ ·) u) (hv : List.Pairwise (· < ·) v) : u = v := by
  have hvn : v.Nodup := hv.imp (fun h => Nat.ne_of_lt h)
  have hun : u.Nodup := hp.nodup_iff.mpr hvn
  have hu2 : List.Pairwise (· < ·) u :=
    (hu.and hun).imp (fun h => Nat.lt_of_le_of_ne h.1 h.2)
  exact List.eq_of_perm_of_sorted hp hu2 hv

/-- The series keys only depend on the timestamps. -/
lemma seriesKeys_congr {g : Nat → Nat} {s t : Series}
    (h : s.map Prod.fst = t.map Prod.fst) : seriesKeys g s = seriesKeys g t := by
  unfold seriesKeys
  have hs : s.map (fun p => g p.1) = (s.map Prod.fst).map g := by
    rw [List.map_map]
    exact List.map_congr_left (fun p _ => rfl)
  have ht : t.map (fun p => g p.1) = (t.map Prod.fst).map g := by
    rw [List.map_map]
    exact List.map_congr_left (fun p _ => rfl)
  rw [hs, ht, h]

/-- When every sample key has a climatology entry, `_remove_climatology`
returns the sorted pointwise subtraction of the broadcast climatology. -/
lemma remove_climatology_ok (g : Nat → Nat) (climo : List (Nat × ℚ)) (s : Series)
    (hcov : ∀ p ∈ s, (climoLookup climo (g p.1)).isSome) :
    remove_climatology g climo s = Except.ok (sortByIndex
      ((((seriesGroupby g s).map Prod.snd).flatten).map
        (fun p => (p.1, p.2 - climoValD climo (g p.1))))) := by
  have hgcov : ∀ kg ∈ seriesGroupby g s, (climoLookup climo kg.1).isSome :=
    groupby_key_prop (fun k => (climoLookup climo k).isSome = true) hcov
  unfold remove_climatology
  rw [removeClimGroups_ok climo _ hgcov]
  have hmaps : (seriesGroupby g s).map
        (fun kg => kg.2.map (fun p => (p.1, p.2 - climoValD climo kg.1)))
      = ((seriesGroupby g s).map Prod.snd).map
        (List.map (fun p => (p.1, p.2 - climoValD climo (g p.1)))) := by
    rw [List.map_map]
    apply List.map_congr_left
    intro kg hkg
    apply List.map_congr_left
    intro p hp
    have hk : g p.1 = kg.1 := by
      have h2 := (mem_seriesGroupby.mp hkg).2
      rw [h2] at hp
      exact (mem_groupOf.mp hp).2
    rw [hk]
  simp only [Except.map]
  rw [hmaps, ← List.map_flatten]

/-- On a strictly sorted series, `_remove_climatology` is exactly the pointwise
subtraction of the broadcast climatology. -/
lemma remove_climatology_eq (g : Nat → Nat) (climo : List (Nat × ℚ)) (s : Series)
    (hs : List.Pairwise idxLT s)
    (hcov : ∀ p ∈ s, (climoLookup climo (g p.1)).isSome) :
    remove_climatology g climo s =
      Except.ok (s.map (fun p => (p.1, p.2 - climoValD climo (g p.1)))) := by
  rw [remove_climatology_ok g climo s hcov]
  congr 1
  apply sortByIndex_eq_of_perm
  · exact (flatten_groups_perm g s).map _
  · rw [pairwise_idxLT_map_fst,
      map_fst_preserving (fun p => (p.1, p.2 - climoValD climo (g p.1))) (fun p => rfl) s]
    exact pairwise_idxLT_map_fst.mp hs

/-- On any series whose timestamps permute a strictly increasing list,
`_remove_climatology` succeeds and returns a series carrying exactly that
timestamp list. -/
lemma remove_climatology_fst (g : Nat → Nat) (climo : List (Nat × ℚ)) (s : Series)
    (u : List Nat) (hperm : (s.map Prod.fst).Perm u) (hu : List.Pairwise (· < ·) u)
    (hcov : ∀ p ∈ s, (climoLookup climo (g p.1)).isSome) :
    ∃ out, remove_climatology g climo s = Except.ok out ∧ out.map Prod.fst = u := by
  rw [remove_climatology_ok g climo s hcov]
  refine ⟨_, rfl, ?_⟩
  apply eq_fst_of_perm_sorted _ _ hu
  · have h1 := (sortByIndex_perm ((((seriesGroupby g s).map Prod.snd).flatten).map
      (fun p => (p.1, p.2 - climoValD climo (g p.1))))).map Prod.fst
    rw [map_fst_preserving (fun p => (p.1, p.2 - climoValD climo (g p.1)))
      (fun p => rfl) _] at h1
    exact h1.trans ((flatten_groups_fst_perm g s).trans hperm)
  · exact pairwise_idxLE_map_fst.mp (sortByIndex_sorted _)

/-- When every sample key has a fitted mapper and the transform preserves
length, `_qm_transform_by_group` on a strictly sorted series succeeds and
preserves the timestamp list exactly. -/
lemma qm_transform_by_group_ok {σ : Type} (qmI : QMIface σ) (d : List (Nat × σ))
    (g : Nat → Nat) (S : Series)
    (hlen : ∀ m xs, (qmI.transform m xs).length = xs.length)
    (hcov : ∀ p ∈ S, (dictGet d (g p.1)).isSome)
    (hS : List.Pairwise idxLT S) :
    ∃ out, qm_transform_by_group qmI d g S = Except.ok out ∧
      out.map Prod.fst = S.map Prod.fst := by
  have hgcov : ∀ kg ∈ seriesGroupby g S, (dictGet d kg.1).isSome :=
    groupby_key_prop (fun k => (dictGet d k).isSome = true) hcov
  rcases qmTransformGroups_ok qmI d hlen (seriesGroupby g S) hgcov with ⟨dfs, hdfs, hfst⟩
  unfold qm_transform_by_group
  rw [hdfs]
  refine ⟨_, rfl, ?_⟩
  apply eq_fst_of_perm_sorted _ _ (pairwise_idxLT_map_fst.mp hS)
  · have h1 := (sortByIndex_perm dfs.flatten).map Prod.fst
    have h2 : dfs.flatten.map Prod.fst
        = (((seriesGroupby g S).map Prod.snd).flatten).map Prod.fst := by
      rw [List.map_flatten, List.map_flatten, hfst, List.map_map]
      rfl
    rw [h2] at h1
    exact h1.trans (flatten_groups_fst_perm g S)
  · exact pairwise_idxLE_map_fst.mp (sortByIndex_sorted _)

/-- With an identity transform, full mapper coverage and a strictly sorted
input, `_qm_transform_by_group` returns the input unchanged. -/
lemma qm_transform_by_group_id {σ : Type} (qmI : QMIface σ)
    (hid : ∀ m xs, qmI.transform m xs = xs) (d : List (Nat × σ)) (g : Nat → Nat)
    (S : Series) (hcov : ∀ p ∈ S, (dictGet d (g p.1)).isSome)
    (hS : List.Pairwise idxLT S) :
    qm_transform_by_group qmI d g S = Except.ok S := by
  have hgcov : ∀ kg ∈ seriesGroupby g S, (dictGet d kg.1).isSome :=
    groupby_key_prop (fun k => (dictGet d k).isSome = true) hcov
  unfold qm_transform_by_group
  rw [qmTransformGroups_id qmI hid d _ hgcov]
  simp only [Except.map]
  rw [sortByIndex_eq_of_perm (flatten_groups_perm g S) hS]

/-! Infrastructure: the mapper dictionary under `_qm_fit_by_group`. -/

/-- Looking up after a dict assignment. -/
lemma dictGet_dictSet {σ : Type} (d : List (Nat × σ)) (k : Nat) (v : σ) (k2 : Nat) :
    dictGet (dictSet d k v) k2 = if k2 = k then some v else dictGet d k2 := by
  by_cases h : k2 = k
  · subst h
    simp [dictGet, dictSet, List.find?_cons]
  · have hbeq : (k == k2) = false := beq_eq_false_iff_ne.mpr (fun he => h he.symm)
    simp [dictGet, dictSet, List.find?_cons, hbeq, h]

/-- Fitting groups does not change the entries of unmentioned keys. -/
lemma dictGet_qm_fit_not_mem {σ : Type} (qmI : QMIface σ) :
    ∀ (groups : List (Nat × Series)) (d : List (Nat × σ)) (k : Nat),
      k ∉ groups.map Prod.fst →
      dictGet (qm_fit_by_group qmI d groups) k = dictGet d k := by
  intro groups
  induction groups with
  | nil => intro d k _; rfl
  | cons kg rest ih =>
    intro d k hk
    have hk1 : k ≠ kg.1 := fun he =>
      hk (List.mem_map.mpr ⟨kg, List.mem_cons_self _ _, he.symm⟩)
    have hk2 : k ∉ rest.map Prod.fst := fun h =>
      hk (by rw [List.map_cons]; exact List.mem_cons_of_mem _ h)
    show dictGet (qm_fit_by_group qmI (dictSet d kg.1 (qmI.fit (kg.2.map Prod.snd))) rest) k
      = dictGet d k
    rw [ih _ k hk2, dictGet_dictSet]
    simp [hk1]

/-- Fitting groups preserves the presence of every existing entry. -/
lemma dictGet_isSome_qm_fit {σ : Type} (qmI : QMIface σ) :
    ∀ (groups : List (Nat × Series)) (d : List (Nat × σ)) (k : Nat),
      (dictGet d k).isSome →
      (dictGet (qm_fit_by_group qmI d groups) k).isSome := by
  intro groups
  induction groups with
  | nil => intro d k h; exact h
  | cons kg rest ih =>
    intro d k h
    rw [show qm_fit_by_group qmI d (kg :: rest)
      = qm_fit_by_group qmI (dictSet d kg.1 (qmI.fit (kg.2.map Prod.snd))) rest from rfl]
    apply ih
    rw [dictGet_dictSet]
    by_cases he : k = kg.1
    · simp [he]
    · simp [he, h]

/-- Fitting groups creates an entry for every group key. -/
lemma dictGet_isSome_qm_fit_mem {σ : Type} (qmI : QMIface σ) :
    ∀ (groups : List (Nat × Series)) (d : List (Nat × σ)) (k : Nat),
      k ∈ groups.map Prod.fst →
      (dictGet (qm_fit_by_group qmI d groups) k).isSome := by
  intro groups
  induction groups with
  | nil => intro d k h; exact absurd h (List.not_mem_nil _)
  | cons kg rest ih =>
    intro d k h
    rw [show qm_fit_by_group qmI d (kg :: rest)
      = qm_fit_by_group qmI (dictSet d kg.1 (qmI.fit (kg.2.map Prod.snd))) rest from rfl]
    rcases List.mem_cons.mp (by rw [List.map_cons] at h; exact h) with he | hm
    · apply dictGet_isSome_qm_fit
      rw [dictGet_dictSet]
      simp [he]
    · exact ih _ k hm

/-- For duplicate-free group keys, fitting stores each group's own fit. -/
lemma dictGet_qm_fit_mem {σ : Type} (qmI : QMIface σ) :
    ∀ (groups : List (Nat × Series)) (d : List (Nat × σ)) (k : Nat) (grp : Series),
      (groups.map Prod.fst).Nodup → (k, grp) ∈ groups →
      dictGet (qm_fit_by_group qmI d groups) k = some (qmI.fit (grp.map Prod.snd)) := by
  intro groups
  induction groups with
  | nil => intro d k grp _ h; exact absurd h (List.not_mem_nil _)
  | cons kg rest ih =>
    intro d k grp hnd hmem
    rw [List.map_cons] at hnd
    have hnd2 := List.nodup_cons.mp hnd
    rcases List.mem_cons.mp hmem with he | hm
    · subst he
      show dictGet (qm_fit_by_group qmI (dictSet d k (qmI.fit (grp.map Prod.snd))) rest) k
        = some (qmI.fit (grp.map Prod.snd))
      rw [dictGet_qm_fit_not_mem qmI rest _ k hnd2.1, dictGet_dictSet]
      simp
    · exact ih _ k grp hnd2.2 hm

/-! Infrastructure: minima, lookups, and error paths. -/

/-- Folded minimum against zero. -/
lemma foldl_min_le_iff : ∀ (xs : List ℚ) (c : ℚ),
    xs.foldl min c ≤ 0 ↔ c ≤ 0 ∨ ∃ x ∈ xs, x ≤ 0 := by
  intro xs
  induction xs with
  | nil => intro c; simp
  | cons x xs ih =>
    intro c
    rw [List.foldl_cons, ih, min_le_iff]
    constructor
    · rintro ((h | h) | ⟨z, hz, hzl⟩)
      · exact Or.inl h
      · exact Or.inr ⟨x, List.mem_cons_self _ _, h⟩
      · exact Or.inr ⟨z, List.mem_cons_of_mem _ hz, hzl⟩
    · rintro (h | ⟨z, hz, hzl⟩)
      · exact Or.inl (Or.inl h)
      · rcases List.mem_cons.mp hz with he | hm
        · exact Or.inl (Or.inr (he ▸ hzl))
        · exact Or.inr ⟨z, hm, hzl⟩

/-- The minimum is absent exactly on the empty list (pandas NaN). -/
lemma listMin_eq_none {xs : List ℚ} : listMin xs = none ↔ xs = [] := by
  cases xs <;> simp [listMin]

/-- The series minimum is non-positive exactly when some element is. -/
lemma listMin_le_zero_iff (xs : List ℚ) :
    (∃ m, listMin xs = some m ∧ m ≤ 0) ↔ ∃ x ∈ xs, x ≤ 0 := by
  cases xs with
  | nil => simp [listMin]
  | cons x xs =>
    simp only [listMin, Option.some.injEq]
    constructor
    · rintro ⟨m, hm, hle⟩
      rw [← hm] at hle
      rcases (foldl_min_le_iff xs x).mp hle with h | ⟨z, hz, hzl⟩
      · exact ⟨x, List.mem_cons_self _ _, h⟩
      · exact ⟨z, List.mem_cons_of_mem _ hz, hzl⟩
    · rintro ⟨z, hz, hzl⟩
      refine ⟨xs.foldl min x, rfl, ?_⟩
      apply (foldl_min_le_iff xs x).mpr
      rcases List.mem_cons.mp hz with he | hm
      · exact Or.inl (he ▸ hzl)
      · exact Or.inr ⟨z, hm, hzl⟩

/-- A climatology produced by `groupby.mean()` has an entry exactly for the
series keys. -/
lemma climoLookup_groupMean_isSome {g : Nat → Nat} {s : Series} {k : Nat} :
    (climoLookup (groupMean g s) k).isSome ↔ k ∈ seriesKeys g s := by
  unfold climoLookup groupMean
  rw [Option.isSome_map', List.find?_isSome]
  constructor
  · rintro ⟨x, hx, hpx⟩
    rcases List.mem_map.mp hx with ⟨k2, hk2, rfl⟩
    have : k2 = k := by simpa using hpx
    exact this ▸ hk2
  · intro hk
    refine ⟨(k, listMean ((groupOf g k s).map Prod.snd)), List.mem_map.mpr ⟨k, hk, rfl⟩, ?_⟩
    simp

/-- Each timestamp in the series contributes its key to the series keys. -/
lemma key_mem_of_fst_mem {g : Nat → Nat} {s : Series} {t : Nat}
    (h : t ∈ s.map Prod.fst) : g t ∈ seriesKeys g s := by
  rcases List.mem_map.mp h with ⟨q, hq, rfl⟩
  exact mem_seriesKeys.mpr ⟨q, hq, rfl⟩

/-- Strict row sortedness transfers along an equality of timestamp lists. -/
lemma pairwise_idxLT_of_fst_eq {s t : Series} (h : s.map Prod.fst = t.map Prod.fst)
    (ht : List.Pairwise idxLT t) : List.Pairwise idxLT s := by
  rw [pairwise_idxLT_map_fst, h]
  exact pairwise_idxLT_map_fst.mp ht

/-- The grouped rolling mean permutes the timestamps of its input. -/
lemma groupedRolling_fst_perm (g : Nat → Nat) (w : Nat) (s : Series) :
    ((groupedRolling g w s).map Prod.fst).Perm (s.map Prod.fst) := by
  have heq : (groupedRolling g w s).map Prod.fst
      = (((seriesGroupby g s).map Prod.snd).flatten).map Prod.fst := by
    unfold groupedRolling
    rw [List.flatMap_def, List.map_flatten, List.map_flatten, List.map_map, List.map_map]
    congr 1
    apply List.map_congr_left
    intro kg _
    have hlen : (kg.2.map Prod.fst).length ≤ (rollingMean w (kg.2.map Prod.snd)).length := by
      rw [rollingMean_length]
      simp
    simp only [Function.comp_def]
    exact List.map_fst_zip _ _ hlen
  rw [heq]
  exact flatten_groups_fst_perm g s

/-- If some sample key has no fitted mapper (and the transform preserves
length), `_qm_transform_by_group` raises a KeyError naming an unfitted key. -/
lemma qm_transform_by_group_keyError {σ : Type} (qmI : QMIface σ) (d : List (Nat × σ))
    (g : Nat → Nat) (X : Series)
    (hlen : ∀ m xs, (qmI.transform m xs).length = xs.length)
    (hmiss : ∃ p ∈ X, dictGet d (g p.1) = none) :
    ∃ k, qm_transform_by_group qmI d g X = Except.error (BcsdErr.keyError k) ∧
      dictGet d k = none := by
  rcases hmiss with ⟨p, hp, hnone⟩
  have hkg : (g p.1, groupOf g (g p.1) X) ∈ seriesGroupby g X :=
    List.mem_map.mpr ⟨g p.1, mem_seriesKeys.mpr ⟨p, hp, rfl⟩, rfl⟩
  rcases qmTransformGroups_keyError qmI d hlen (seriesGroupby g X)
      ⟨(g p.1, groupOf g (g p.1) X), hkg, hnone⟩ with ⟨k, hk, hknone⟩
  refine ⟨k, ?_, hknone⟩
  unfold qm_transform_by_group
  rw [hk]
  rfl

/-- If some sample key has no climatology entry, `_remove_climatology` raises a
KeyError naming a missing key. -/
lemma remove_climatology_keyError (g : Nat → Nat) (climo : List (Nat × ℚ)) (X : Series)
    (hmiss : ∃ p ∈ X, climoLookup climo (g p.1) = none) :
    ∃ k, remove_climatology g climo X = Except.error (BcsdErr.keyError k) ∧
      climoLookup climo k = none := by
  rcases hmiss with ⟨p, hp, hnone⟩
  have hkg : (g p.1, groupOf g (g p.1) X) ∈ seriesGroupby g X :=
    List.mem_map.mpr ⟨g p.1, mem_seriesKeys.mpr ⟨p, hp, rfl⟩, rfl⟩
  rcases removeClimGroups_keyError climo (seriesGroupby g X)
      ⟨(g p.1, groupOf g (g p.1) X), hkg, hnone⟩ with ⟨k, hk, hknone⟩
  refine ⟨k, ?_, hknone⟩
  unfold remove_climatology
  rw [hk]
  rfl

/-- Evaluation rule for `BcsdPrecipitation.fit`. -/
lemma precip_fit_eval {σ : Type} (qmI : QMIface σ) (g : Nat → Nat) (st : BcsdState σ)
    (X y : Series) :
    BcsdPrecipitation.fit qmI g st X y =
      (match listMin ((groupMean g y).map Prod.snd) with
       | some m =>
         if m ≤ 0 then
           (⟨st.quantile_mappers_, st.x_climo, some (groupMean g y)⟩,
             some (BcsdErr.valueError "Invalid value in target climatology"))
         else
           (⟨qm_fit_by_group qmI st.quantile_mappers_ (seriesGroupby g y),
             st.x_climo, some (groupMean g y)⟩, none)
       | none =>
         (⟨qm_fit_by_group qmI st.quantile_mappers_ (seriesGroupby g y),
           st.x_climo, some (groupMean g y)⟩, none)) := rfl

/-! Claim theorems. -/

/-- Claim C2, counterexample: the rolling step of `BcsdTemperature.predict` is
not a centered moving average over the whole series in timestamp order.  On the
three-sample series [(0,0),(1,60),(2,6)] with a two-period grouper, the
group-wise rolling step of the source yields value 3 at timestamp 0, while the
whole-series centered 9-window mean yields 22 there. -/
theorem c2_counterexample :
    sortByIndex (groupedRolling parityGrouper 9 [(0, 0), (1, 60), (2, 6)])
      ≠ wholeRolling 9 [(0, 0), (1, 60), (2, 6)]
    ∧ sortByIndex (groupedRolling parityGrouper 9 [(0, 0), (1, 60), (2, 6)])
      = [(0, 3), (1, 60), (2, 3)]
    ∧ wholeRolling 9 [(0, 0), (1, 60), (2, 6)] = [(0, 22), (1, 22), (2, 22)] := by
  refine ⟨?_, by with_unfolding_all decide, by with_unfolding_all decide⟩
  with_unfolding_all decide

/-- Claim C2, amended: the rolling mean in step 1 of `BcsdTemperature.predict`
is computed within each calendar-period group — a centered 9-sample moving
average over each group's consecutive samples, averaging whatever samples are
available (at least 1) at group edges — and it yields exactly one defined value
per input sample, so a 3-sample series still yields 3 defined values. -/
theorem c2_amended (g : Nat → Nat) (X : Series) :
    groupedRolling g 9 X = (seriesGroupby g X).flatMap
        (fun kg => (kg.2.map Prod.fst).zip (rollingMean 9 (kg.2.map Prod.snd)))
    ∧ (groupedRolling g 9 X).length = X.length := by
  constructor
  · rfl
  · have hperm := (flatten_groups_perm g X).length_eq
    rw [List.length_flatten, List.map_map] at hperm
    unfold groupedRolling
    rw [List.flatMap_def, List.length_flatten, List.map_map]
    rw [← hperm]
    congr 1
    apply List.map_congr_left
    intro kg _
    simp [List.length_zip, rollingMean_length, Function.comp_def]

/-- Claim C3: the source's `BcsdPrecipitation.predict` cannot perform the
ratio correction — its final expression divides a pandas GroupBy object by a
Series, an unsupported operation — so on a fitted model (target means
Jan: 10, Feb: 12) and a February input it raises a TypeError, while the
intended group-wise ratio would return quantile-mapped / 12 = 24 / 12 = 2. -/
theorem c3_precip_predict_bug :
    BcsdPrecipitation.predict idQM monthGrouper
        ((BcsdPrecipitation.fit idQM monthGrouper (initState Unit) []
          [(0, 10), (1, 12)]).1) [(1, 24)]
      = Except.error (BcsdErr.typeError
          "unsupported operand types for div: DataFrameGroupBy and Series")
    ∧ BcsdPrecipitation.predictIntended idQM monthGrouper
        ((BcsdPrecipitation.fit idQM monthGrouper (initState Unit) []
          [(0, 10), (1, 12)]).1) [(1, 24)]
      = Except.ok [(1, 2)] := by
  constructor
  · with_unfolding_all decide
  · with_unfolding_all decide

/-- Claim C4: `BcsdPrecipitation.fit` raises exactly when some per-group mean
of the target is non-positive, and otherwise returns the fitted model (target
climatology stored and one quantile mapper fitted per target group). -/
theorem c4_precip_fit_error_iff {σ : Type} (qmI : QMIface σ) (g : Nat → Nat)
    (st : BcsdState σ) (X y : Series) :
    ((BcsdPrecipitation.fit qmI g st X y).2 ≠ none ↔
      ∃ p ∈ groupMean g y, p.2 ≤ 0)
    ∧ ((BcsdPrecipitation.fit qmI g st X y).2 = none →
        (BcsdPrecipitation.fit qmI g st X y).1 =
          ⟨qm_fit_by_group qmI st.quantile_mappers_ (seriesGroupby g y),
           st.x_climo, some (groupMean g y)⟩) := by
  rw [precip_fit_eval]
  cases hm : listMin ((groupMean g y).map Prod.snd) with
  | none =>
    have hnil : groupMean g y = [] := by
      have := listMin_eq_none.mp hm
      exact List.map_eq_nil_iff.mp this
    constructor
    · simp [hnil]
    · intro _
      rfl
  | some m =>
    by_cases hle : m ≤ 0
    · constructor
      · simp only [hle, if_true]
        constructor
        · intro _
          have hex : ∃ x ∈ (groupMean g y).map Prod.snd, x ≤ 0 :=
            (listMin_le_zero_iff _).mp ⟨m, hm, hle⟩
          rcases hex with ⟨x, hx, hxle⟩
          rcases List.mem_map.mp hx with ⟨p, hp, rfl⟩
          exact ⟨p, hp, hxle⟩
        · intro _
          simp
      · simp [hle]
    · constructor
      · simp only [hle, if_false]
        constructor
        · intro h
          exact absurd rfl h
        · rintro ⟨p, hp, hple⟩
          exfalso
          have hex : ∃ x ∈ (groupMean g y).map Prod.snd, x ≤ 0 :=
            ⟨p.2, List.mem_map.mpr ⟨p, hp, rfl⟩, hple⟩
          rcases (listMin_le_zero_iff _).mpr hex with ⟨m2, hm2, hm2le⟩
          rw [hm] at hm2
          cases hm2
          exact hle hm2le
      · intro _
        simp [hle]

/-- Claim C4 witness: on a valid one-group target the fit does not raise, and
the returned model carries the fitted quantile-mapper set and climatology. -/
theorem c4_witness :
    ((BcsdPrecipitation.fit idQM monthGrouper (initState Unit) [] [(0, 2)]).2 = none ↔
      ¬ ∃ p ∈ groupMean monthGrouper [(0, 2)], p.2 ≤ 0)
    ∧ (BcsdPrecipitation.fit idQM monthGrouper (initState Unit) [] [(0, 2)]).1 =
        ⟨qm_fit_by_group idQM (initState Unit).quantile_mappers_
          (seriesGroupby monthGrouper [(0, 2)]),
         (initState Unit).x_climo, some (groupMean monthGrouper [(0, 2)])⟩ := by
  have h := c4_precip_fit_error_iff idQM monthGrouper (initState Unit) [] [(0, 2)]
  constructor
  · have h2 := not_iff_not.mpr h.1
    rw [not_not] at h2
    exact h2
  · exact h.2 (by with_unfolding_all decide)

/-- Claim C8, counterexample: a failed `BcsdPrecipitation.fit` is not atomic.
Refitting a previously fitted model on a constant-zero target raises, yet the
stored target climatology has already been overwritten by the invalid one. -/
theorem c8_counterexample :
    ((BcsdPrecipitation.fit idQM monthGrouper
        ((BcsdPrecipitation.fit idQM monthGrouper (initState Unit) [] [(0, 2)]).1)
        [] [(0, 0)]).2 ≠ none)
    ∧ (BcsdPrecipitation.fit idQM monthGrouper
        ((BcsdPrecipitation.fit idQM monthGrouper (initState Unit) [] [(0, 2)]).1)
        [] [(0, 0)]).1.y_climo
      ≠ ((BcsdPrecipitation.fit idQM monthGrouper (initState Unit) [] [(0, 2)]).1).y_climo := by
  constructor
  · with_unfolding_all decide
  · with_unfolding_all decide

/-- Claim C8, amended: when `fit` raises, the fitted quantile-mapper set and
the training-input climatology are left untouched, but the target climatology
has already been overwritten with the climatology of the rejected target
(assigned before the positivity check); `BcsdTemperature.fit` never raises. -/
theorem c8_amended {σ : Type} (qmI : QMIface σ) (g : Nat → Nat) (st : BcsdState σ)
    (X y : Series) (herr : (BcsdPrecipitation.fit qmI g st X y).2 ≠ none) :
    (BcsdPrecipitation.fit qmI g st X y).1.quantile_mappers_ = st.quantile_mappers_
    ∧ (BcsdPrecipitation.fit qmI g st X y).1.x_climo = st.x_climo
    ∧ (BcsdPrecipitation.fit qmI g st X y).1.y_climo = some (groupMean g y)
    ∧ (BcsdTemperature.fit qmI g st X y).2 = none := by
  rw [precip_fit_eval] at herr ⊢
  cases hm : listMin ((groupMean g y).map Prod.snd) with
  | none =>
    rw [hm] at herr
    exact absurd rfl herr
  | some m =>
    rw [hm] at herr
    by_cases hle : m ≤ 0
    · simp [hle, BcsdTemperature.fit]
    · simp [hle] at herr

/-- Claim C8 witness: the amended statement at the concrete failing refit. -/
theorem c8_witness :
    (BcsdPrecipitation.fit idQM monthGrouper
        ((BcsdPrecipitation.fit idQM monthGrouper (initState Unit) [] [(0, 2)]).1)
        [] [(0, 0)]).1.quantile_mappers_
      = ((BcsdPrecipitation.fit idQM monthGrouper (initState Unit) [] [(0, 2)]).1).quantile_mappers_
    ∧ (BcsdPrecipitation.fit idQM monthGrouper
        ((BcsdPrecipitation.fit idQM monthGrouper (initState Unit) [] [(0, 2)]).1)
        [] [(0, 0)]).1.x_climo
      = ((BcsdPrecipitation.fit idQM monthGrouper (initState Unit) [] [(0, 2)]).1).x_climo
    ∧ (BcsdPrecipitation.fit idQM monthGrouper
        ((BcsdPrecipitation.fit idQM monthGrouper (initState Unit) [] [(0, 2)]).1)
        [] [(0, 0)]).1.y_climo = some (groupMean monthGrouper [(0, 0)])
    ∧ (BcsdTemperature.fit idQM monthGrouper
        ((BcsdPrecipitation.fit idQM monthGrouper (initState Unit) [] [(0, 2)]).1)
        [] [(0, 0)]).2 = none :=
  c8_amended idQM monthGrouper
    ((BcsdPrecipitation.fit idQM monthGrouper (initState Unit) [] [(0, 2)]).1)
    [] [(0, 0)] (by with_unfolding_all decide)

/-- Claim C5: on an input series with strictly increasing timestamps whose
period keys all have a fitted mapper (and a length-preserving mapper
transform, as the Quantile Mapper interface guarantees),
`_qm_transform_by_group` returns a series with exactly the same timestamp
list — hence the same index set, the same length, and the original order; no
sample is gained, lost, duplicated or reordered. -/
theorem c5_transform_preserves_index {σ : Type} (qmI : QMIface σ)
    (d : List (Nat × σ)) (g : Nat → Nat) (S : Series)
    (hlen : ∀ m xs, (qmI.transform m xs).length = xs.length)
    (hcov : ∀ p ∈ S, (dictGet d (g p.1)).isSome)
    (hS : List.Pairwise idxLT S) :
    ∃ out, qm_transform_by_group qmI d g S = Except.ok out ∧
      out.map Prod.fst = S.map Prod.fst ∧ out.length = S.length := by
  rcases qm_transform_by_group_ok qmI d g S hlen hcov hS with ⟨out, hout, hfst⟩
  refine ⟨out, hout, hfst, ?_⟩
  have := congrArg List.length hfst
  simpa using this

/-- Claim C5 witness: the concrete three-sample series over two fitted keys. -/
theorem c5_witness :
    ∃ out, qm_transform_by_group idQM [(0, ()), (1, ())] parityGrouper
        [(0, 5), (1, 7), (2, 9)] = Except.ok out ∧
      out.map Prod.fst = ([(0, 5), (1, 7), (2, 9)] : Series).map Prod.fst ∧
      out.length = ([(0, 5), (1, 7), (2, 9)] : Series).length :=
  c5_transform_preserves_index idQM [(0, ()), (1, ())] parityGrouper
    [(0, 5), (1, 7), (2, 9)] (fun m xs => rfl)
    (by with_unfolding_all decide) (by with_unfolding_all decide)

/-- Claim C7: on a series with strictly increasing timestamps and a
climatology with an entry for every occurring period key,
`_remove_climatology` succeeds, keeps the exact timestamp list (same shape and
index set), and adding the broadcast climatology back restores the original
series elementwise. -/
theorem c7_remove_climatology_roundtrip (g : Nat → Nat) (climo : List (Nat × ℚ))
    (s : Series) (hs : List.Pairwise idxLT s)
    (hcov : ∀ p ∈ s, (climoLookup climo (g p.1)).isSome) :
    ∃ out, remove_climatology g climo s = Except.ok out ∧
      out.map Prod.fst = s.map Prod.fst ∧
      out.map (fun p => (p.1, p.2 + climoValD climo (g p.1))) = s := by
  rw [remove_climatology_eq g climo s hs hcov]
  refine ⟨_, rfl, ?_, ?_⟩
  · exact map_fst_preserving (fun p => (p.1, p.2 - climoValD climo (g p.1)))
      (fun p => rfl) s
  · rw [List.map_map]
    have hid : ∀ p ∈ s, ((fun p => (p.1, p.2 + climoValD climo (g p.1))) ∘
        (fun p => (p.1, p.2 - climoValD climo (g p.1)))) p = id p := by
      intro p _
      simp [Function.comp_def, sub_add_cancel]
    rw [List.map_congr_left hid, List.map_id]

/-- Claim C7 witness: a concrete two-group series and climatology. -/
theorem c7_witness :
    ∃ out, remove_climatology parityGrouper [(0, 3), (1, 10)]
        [(0, 5), (1, 7), (2, 9)] = Except.ok out ∧
      out.map Prod.fst = ([(0, 5), (1, 7), (2, 9)] : Series).map Prod.fst ∧
      out.map (fun p => (p.1, p.2 + climoValD [(0, 3), (1, 10)] (parityGrouper p.1)))
        = [(0, 5), (1, 7), (2, 9)] :=
  c7_remove_climatology_roundtrip parityGrouper [(0, 3), (1, 10)]
    [(0, 5), (1, 7), (2, 9)] (by with_unfolding_all decide)
    (by with_unfolding_all decide)

/-- Claim C10: a second fit on the same model never deletes previously fitted
per-group state.  After two temperature fits, every key fitted by the first
fit still has a mapper; keys outside the second target keep exactly the first
fit's entry; keys of the second target hold the second fit's mapper; and a
later `_qm_transform_by_group` whose input keys are all covered by either fit
succeeds instead of raising an unseen-group KeyError. -/
theorem c10_refit_keeps_mappers {σ : Type} (qmI : QMIface σ) (g : Nat → Nat)
    (st : BcsdState σ) (X y X2 y2 : Series) :
    (∀ k, (dictGet ((BcsdTemperature.fit qmI g st X y).1).quantile_mappers_ k).isSome →
      (dictGet ((BcsdTemperature.fit qmI g ((BcsdTemperature.fit qmI g st X y).1)
        X2 y2).1).quantile_mappers_ k).isSome)
    ∧ (∀ k, k ∉ seriesKeys g y2 →
      dictGet ((BcsdTemperature.fit qmI g ((BcsdTemperature.fit qmI g st X y).1)
          X2 y2).1).quantile_mappers_ k
        = dictGet ((BcsdTemperature.fit qmI g st X y).1).quantile_mappers_ k)
    ∧ (∀ k, k ∈ seriesKeys g y2 →
      dictGet ((BcsdTemperature.fit qmI g ((BcsdTemperature.fit qmI g st X y).1)
          X2 y2).1).quantile_mappers_ k
        = some (qmI.fit ((groupOf g k y2).map Prod.snd)))
    ∧ (∀ X3 : Series, (∀ m xs, (qmI.transform m xs).length = xs.length) →
      List.Pairwise idxLT X3 →
      (∀ p ∈ X3, (dictGet ((BcsdTemperature.fit qmI g st X y).1).quantile_mappers_
        (g p.1)).isSome ∨ g p.1 ∈ seriesKeys g y2) →
      ∃ out, qm_transform_by_group qmI
        ((BcsdTemperature.fit qmI g ((BcsdTemperature.fit qmI g st X y).1)
          X2 y2).1).quantile_mappers_ g X3 = Except.ok out) := by
  have hkeys : (seriesGroupby g y2).map Prod.fst = seriesKeys g y2 :=
    seriesGroupby_fst g y2
  refine ⟨?_, ?_, ?_, ?_⟩
  · intro k hk
    exact dictGet_isSome_qm_fit qmI (seriesGroupby g y2) _ k hk
  · intro k hk
    apply dictGet_qm_fit_not_mem qmI (seriesGroupby g y2) _ k
    rw [hkeys]
    exact hk
  · intro k hk
    apply dictGet_qm_fit_mem qmI (seriesGroupby g y2) _ k (groupOf g k y2)
    · rw [hkeys]
      exact nodup_seriesKeys g y2
    · exact mem_seriesGroupby.mpr ⟨hk, rfl⟩
  · intro X3 hlen h3 hcov
    have hcov2 : ∀ p ∈ X3,
        (dictGet ((BcsdTemperature.fit qmI g ((BcsdTemperature.fit qmI g st X y).1)
          X2 y2).1).quantile_mappers_ (g p.1)).isSome := by
      intro p hp
      rcases hcov p hp with h | h
      · exact dictGet_isSome_qm_fit qmI (seriesGroupby g y2) _ _ h
      · apply dictGet_isSome_qm_fit_mem qmI (seriesGroupby g y2) _ _
        rw [hkeys]
        exact h
    rcases qm_transform_by_group_ok qmI _ g X3 hlen hcov2 h3 with ⟨out, hout, _⟩
    exact ⟨out, hout⟩

/-- Claim C10 witness: a key fitted only by the first fit survives the second
fit, the overlap takes the second fit's mapper, and a predict-style transform
over both keys succeeds. -/
theorem c10_witness :
    (dictGet ((BcsdTemperature.fit idQM monthGrouper
        ((BcsdTemperature.fit idQM monthGrouper (initState Unit) [(0, 1)] [(0, 5)]).1)
        [(1, 2)] [(1, 7)]).1).quantile_mappers_ 1).isSome
    ∧ dictGet ((BcsdTemperature.fit idQM monthGrouper
        ((BcsdTemperature.fit idQM monthGrouper (initState Unit) [(0, 1)] [(0, 5)]).1)
        [(1, 2)] [(1, 7)]).1).quantile_mappers_ 2
      = some (idQM.fit ((groupOf monthGrouper 2 [(1, 7)]).map Prod.snd))
    ∧ ∃ out, qm_transform_by_group idQM
        ((BcsdTemperature.fit idQM monthGrouper
          ((BcsdTemperature.fit idQM monthGrouper (initState Unit) [(0, 1)] [(0, 5)]).1)
          [(1, 2)] [(1, 7)]).1).quantile_mappers_ monthGrouper [(0, 20), (1, 30)]
        = Except.ok out := by
  have h := c10_refit_keeps_mappers idQM monthGrouper (initState Unit)
    [(0, 1)] [(0, 5)] [(1, 2)] [(1, 7)]
  refine ⟨?_, ?_, ?_⟩
  · exact h.1 1 (by with_unfolding_all decide)
  · exact h.2.2.1 2 (by with_unfolding_all decide)
  · exact h.2.2.2 [(0, 20), (1, 30)] (fun m xs => rfl)
      (by with_unfolding_all decide) (by with_unfolding_all decide)

/-- Bind on a success. -/
lemma except_bind_ok {ε α β : Type} (a : α) (f : α → Except ε β) :
    (Except.ok a : Except ε α).bind f = f a := rfl

/-- Bind on an error propagates the error. -/
lemma except_bind_error {ε α β : Type} (e : ε) (f : α → Except ε β) :
    (Except.error e : Except ε α).bind f = Except.error e := rfl

/-- Evaluation rule for `BcsdTemperature.predict`. -/
lemma temp_predict_eval {σ : Type} (qmI : QMIface σ) (g : Nat → Nat)
    (st : BcsdState σ) (X : Series) :
    BcsdTemperature.predict qmI g st X =
      (match st.x_climo with
       | none => Except.error (BcsdErr.attributeError "_x_climo")
       | some xc => remove_climatology g xc (groupedRolling g 9 X)).bind (fun X_shift =>
      (alignedZip (fun a b => a - b) X X_shift).bind (fun X_no_shift =>
      (qm_transform_by_group qmI st.quantile_mappers_ g X_no_shift).bind (fun Xqm =>
      (alignedZip (fun a b => a + b) Xqm X_shift).bind (fun X_qm_with_shift =>
      match st.y_climo with
      | none => Except.error (BcsdErr.attributeError "_y_climo")
      | some yc => remove_climatology g yc X_qm_with_shift)))) := rfl

/-- Claim C9: a Period Key present in a predict input but absent from the
fitted quantile-mapper set is fatal for both models.  `BcsdPrecipitation.predict`
raises a KeyError naming an unfitted key — an error distinct from the
ValueError/TypeError used for invalid input — and returns no result;
`BcsdTemperature.predict` likewise raises a KeyError naming a key unknown to
the fitted state (either an unfitted mapper key or, upstream, a key missing
from the training-input climatology); no sample is skipped or imputed. -/
theorem c9_unseen_group_error :
    (∀ (σ : Type) (qmI : QMIface σ) (g : Nat → Nat) (st : BcsdState σ) (X : Series),
      (∀ m xs, (qmI.transform m xs).length = xs.length) →
      (∃ p ∈ X, dictGet st.quantile_mappers_ (g p.1) = none) →
      ∃ k, BcsdPrecipitation.predict qmI g st X = Except.error (BcsdErr.keyError k) ∧
        dictGet st.quantile_mappers_ k = none ∧
        ∀ msg, BcsdErr.keyError k ≠ BcsdErr.valueError msg ∧
          BcsdErr.keyError k ≠ BcsdErr.typeError msg)
    ∧ (∀ (σ : Type) (qmI : QMIface σ) (g : Nat → Nat) (st : BcsdState σ)
        (xc : List (Nat × ℚ)) (X : Series),
      (∀ m xs, (qmI.transform m xs).length = xs.length) →
      st.x_climo = some xc →
      List.Pairwise idxLT X →
      (∃ p ∈ X, dictGet st.quantile_mappers_ (g p.1) = none) →
      ∃ k, BcsdTemperature.predict qmI g st X = Except.error (BcsdErr.keyError k) ∧
        (dictGet st.quantile_mappers_ k = none ∨ climoLookup xc k = none)) := by
  constructor
  · intro σ qmI g st X hlen hmiss
    rcases qm_transform_by_group_keyError qmI st.quantile_mappers_ g X hlen hmiss
      with ⟨k, hk, hnone⟩
    refine ⟨k, ?_, hnone, fun msg =>
      ⟨fun h => BcsdErr.noConfusion h, fun h => BcsdErr.noConfusion h⟩⟩
    unfold BcsdPrecipitation.predict
    rw [hk]
    rfl
  · intro σ qmI g st xc X hlen hxc h3 hmiss
    by_cases hcov : ∀ p ∈ groupedRolling g 9 X, (climoLookup xc (g p.1)).isSome
    · rcases remove_climatology_fst g xc (groupedRolling g 9 X) (X.map Prod.fst)
          (groupedRolling_fst_perm g 9 X) (pairwise_idxLT_map_fst.mp h3) hcov
        with ⟨X_shift, hshift, hshift_fst⟩
      have halign : X.map Prod.fst = X_shift.map Prod.fst := hshift_fst.symm
      have hXn_fst : (List.zipWith (fun p q => (p.1, p.2 - q.2)) X X_shift).map Prod.fst
          = X.map Prod.fst := zipWith_pair_fst _ X X_shift halign
      have hmiss2 : ∃ p ∈ List.zipWith (fun p q => (p.1, p.2 - q.2)) X X_shift,
          dictGet st.quantile_mappers_ (g p.1) = none := by
        rcases hmiss with ⟨p, hp, hnone⟩
        have hmem : p.1 ∈ (List.zipWith (fun p q => (p.1, p.2 - q.2)) X X_shift).map Prod.fst := by
          rw [hXn_fst]
          exact List.mem_map.mpr ⟨p, hp, rfl⟩
        rcases List.mem_map.mp hmem with ⟨q, hq, hq1⟩
        refine ⟨q, hq, ?_⟩
        rw [hq1]
        exact hnone
      rcases qm_transform_by_group_keyError qmI st.quantile_mappers_ g
          (List.zipWith (fun p q => (p.1, p.2 - q.2)) X X_shift) hlen hmiss2
        with ⟨k, hk, hknone⟩
      refine ⟨k, ?_, Or.inl hknone⟩
      rw [temp_predict_eval, hxc]
      dsimp only
      rw [hshift, except_bind_ok]
      unfold alignedZip
      rw [if_pos halign, except_bind_ok, hk, except_bind_error]
    · have hmissc : ∃ p ∈ groupedRolling g 9 X, climoLookup xc (g p.1) = none := by
        push_neg at hcov
        rcases hcov with ⟨p, hp, hnone⟩
        exact ⟨p, hp, Option.not_isSome_iff_eq_none.mp hnone⟩
      rcases remove_climatology_keyError g xc (groupedRolling g 9 X) hmissc
        with ⟨k, hk, hknone⟩
      refine ⟨k, ?_, Or.inr hknone⟩
      rw [temp_predict_eval, hxc]
      dsimp only
      rw [hk, except_bind_error]

/-- Claim C9 witness: an unfitted month in the input is fatal for both models
at concrete inputs. -/
theorem c9_witness :
    (∃ k, BcsdPrecipitation.predict idQM monthGrouper (initState Unit) [(0, 5)]
        = Except.error (BcsdErr.keyError k) ∧
      dictGet (initState Unit).quantile_mappers_ k = none ∧
      ∀ msg, BcsdErr.keyError k ≠ BcsdErr.valueError msg ∧
        BcsdErr.keyError k ≠ BcsdErr.typeError msg)
    ∧ (∃ k, BcsdTemperature.predict idQM monthGrouper
          ((BcsdTemperature.fit idQM monthGrouper (initState Unit) [(0, 1)] [(0, 5)]).1)
          [(1, 3)]
        = Except.error (BcsdErr.keyError k) ∧
      (dictGet ((BcsdTemperature.fit idQM monthGrouper (initState Unit)
          [(0, 1)] [(0, 5)]).1).quantile_mappers_ k = none ∨
        climoLookup (groupMean monthGrouper [(0, 1)]) k = none)) := by
  constructor
  · exact c9_unseen_group_error.1 Unit idQM monthGrouper (initState Unit) [(0, 5)]
      (fun m xs => rfl) (by with_unfolding_all decide)
  · exact c9_unseen_group_error.2 Unit idQM monthGrouper
      ((BcsdTemperature.fit idQM monthGrouper (initState Unit) [(0, 1)] [(0, 5)]).1)
      (groupMean monthGrouper [(0, 1)]) [(1, 3)] (fun m xs => rfl) rfl
      (by with_unfolding_all decide) (by with_unfolding_all decide)

/-- Claim C1, counterexample: with step 1 read as the spec defines it — a
rolling mean over the whole input series in timestamp order — the six-step
pipeline does not compute `BcsdTemperature.predict`.  On a model fitted with a
doubling (non-identity) quantile mapper over two period groups, the source's
predict returns [(0,-1),(1,100),(2,3)] while the stated pipeline returns
[(0,-34),(1,166),(2,-30)]. -/
theorem c1_counterexample :
    BcsdTemperature.predict doubleQM parityGrouper
        ((BcsdTemperature.fit doubleQM parityGrouper (initState Unit)
          [(0, 0), (1, 100), (2, 2)] [(0, 0), (1, 100), (2, 2)]).1)
        [(0, 0), (1, 100), (2, 2)]
      ≠ BcsdTemperature.statedPipeline doubleQM parityGrouper
        ((BcsdTemperature.fit doubleQM parityGrouper (initState Unit)
          [(0, 0), (1, 100), (2, 2)] [(0, 0), (1, 100), (2, 2)]).1)
        [(0, 0), (1, 100), (2, 2)]
    ∧ BcsdTemperature.predict doubleQM parityGrouper
        ((BcsdTemperature.fit doubleQM parityGrouper (initState Unit)
          [(0, 0), (1, 100), (2, 2)] [(0, 0), (1, 100), (2, 2)]).1)
        [(0, 0), (1, 100), (2, 2)]
      = Except.ok [(0, -1), (1, 100), (2, 3)]
    ∧ BcsdTemperature.statedPipeline doubleQM parityGrouper
        ((BcsdTemperature.fit doubleQM parityGrouper (initState Unit)
          [(0, 0), (1, 100), (2, 2)] [(0, 0), (1, 100), (2, 2)]).1)
        [(0, 0), (1, 100), (2, 2)]
      = Except.ok [(0, -34), (1, 166), (2, -30)] := by
  refine ⟨?_, ?_, ?_⟩
  · with_unfolding_all decide
  · with_unfolding_all decide
  · with_unfolding_all decide

/-- Claim C1, amended: `BcsdTemperature.predict` computes exactly the six-step
pipeline in the stated order — (1) rolling mean (window 9, centered,
min-periods 1) taken within each calendar-period group of the input, (2) Shift
= remove_climatology of that rolling series against the training-input
climatology, (3) De-shifted = input minus Shift, (4) group-wise quantile
mapping of the De-shifted series, (5) re-addition of Shift, (6)
remove_climatology against the target climatology — and returns step 6. -/
theorem c1_pipeline_order {σ : Type} (qmI : QMIface σ) (g : Nat → Nat)
    (st : BcsdState σ) (X : Series) :
    BcsdTemperature.predict qmI g st X = BcsdTemperature.amendedPipeline qmI g st X := rfl

/-- Claim C6: with an identity quantile-mapper transform, predicting on the
exact training input returns the input minus the target climatology broadcast
by period key: the shift subtracted in step 3 and re-added in step 5 cancels,
leaving only the final anomaly step.  (The training input must be a valid
series — strictly increasing timestamps — and each of its period keys must
occur in the training target, or predict could not look up its mappers.) -/
theorem c6_identity_mapper_roundtrip {σ : Type} (qmI : QMIface σ) (g : Nat → Nat)
    (st0 : BcsdState σ) (X y : Series)
    (hid : ∀ m xs, qmI.transform m xs = xs)
    (hX : List.Pairwise idxLT X)
    (hkeys : ∀ k ∈ seriesKeys g X, k ∈ seriesKeys g y) :
    BcsdTemperature.predict qmI g ((BcsdTemperature.fit qmI g st0 X y).1) X
      = Except.ok (X.map (fun p => (p.1, p.2 - climoValD (groupMean g y) (g p.1)))) := by
  have hx_eval : ((BcsdTemperature.fit qmI g st0 X y).1).x_climo
      = some (groupMean g X) := rfl
  have hy_eval : ((BcsdTemperature.fit qmI g st0 X y).1).y_climo
      = some (groupMean g y) := rfl
  have hd_eval : ((BcsdTemperature.fit qmI g st0 X y).1).quantile_mappers_
      = qm_fit_by_group qmI st0.quantile_mappers_ (seriesGroupby g y) := rfl
  have hcov_rm : ∀ p ∈ groupedRolling g 9 X,
      (climoLookup (groupMean g X) (g p.1)).isSome := by
    intro p hp
    rw [climoLookup_groupMean_isSome]
    apply key_mem_of_fst_mem
    apply ((groupedRolling_fst_perm g 9 X).mem_iff).mp
    exact List.mem_map.mpr ⟨p, hp, rfl⟩
  rcases remove_climatology_fst g (groupMean g X) (groupedRolling g 9 X)
      (X.map Prod.fst) (groupedRolling_fst_perm g 9 X)
      (pairwise_idxLT_map_fst.mp hX) hcov_rm
    with ⟨X_shift, hshift, hshift_fst⟩
  have halign : X.map Prod.fst = X_shift.map Prod.fst := hshift_fst.symm
  have hXn_fst : (List.zipWith (fun p q => (p.1, p.2 - q.2)) X X_shift).map Prod.fst
      = X.map Prod.fst := zipWith_pair_fst _ X X_shift halign
  have hXn_lt : List.Pairwise idxLT (List.zipWith (fun p q => (p.1, p.2 - q.2)) X X_shift) :=
    pairwise_idxLT_of_fst_eq hXn_fst hX
  have hcov_qm : ∀ p ∈ List.zipWith (fun p q => (p.1, p.2 - q.2)) X X_shift,
      (dictGet (qm_fit_by_group qmI st0.quantile_mappers_ (seriesGroupby g y))
        (g p.1)).isSome := by
    intro p hp
    apply dictGet_isSome_qm_fit_mem qmI (seriesGroupby g y) _ _
    rw [seriesGroupby_fst]
    apply hkeys
    apply key_mem_of_fst_mem
    rw [← hXn_fst]
    exact List.mem_map.mpr ⟨p, hp, rfl⟩
  have hcov_y : ∀ p ∈ X, (climoLookup (groupMean g y) (g p.1)).isSome := by
    intro p hp
    rw [climoLookup_groupMean_isSome]
    apply hkeys
    exact mem_seriesKeys.mpr ⟨p, hp, rfl⟩
  rw [temp_predict_eval, hx_eval, hy_eval, hd_eval]
  dsimp only
  rw [hshift, except_bind_ok]
  unfold alignedZip
  rw [if_pos halign, except_bind_ok]
  rw [qm_transform_by_group_id qmI hid _ g _ hcov_qm hXn_lt, except_bind_ok]
  rw [if_pos (hXn_fst.trans halign), except_bind_ok]
  rw [zipWith_sub_add X X_shift halign]
  exact remove_climatology_eq g (groupMean g y) X hX hcov_y

/-- Claim C6 witness: at the concrete training pair X = y =
[(0,0),(1,100),(2,2)] over two period groups with the identity mapper, predict
returns X minus the target climatology broadcast by key. -/
theorem c6_witness :
    BcsdTemperature.predict idQM parityGrouper
        ((BcsdTemperature.fit idQM parityGrouper (initState Unit)
          [(0, 0), (1, 100), (2, 2)] [(0, 0), (1, 100), (2, 2)]).1)
        [(0, 0), (1, 100), (2, 2)]
      = Except.ok (([(0, 0), (1, 100), (2, 2)] : Series).map
          (fun p => (p.1, p.2 - climoValD (groupMean parityGrouper
            [(0, 0), (1, 100), (2, 2)]) (parityGrouper p.1)))) :=
  c6_identity_mapper_roundtrip idQM parityGrouper (initState Unit)
    [(0, 0), (1, 100), (2, 2)] [(0, 0), (1, 100), (2, 2)]
    (fun m xs => rfl) (by with_unfolding_all decide) (by with_unfolding_all decide)
